import Mathlib

/-!
Verification development for the "Galaxy Racer: Neon Drift" canvas game
(`GalaxyRacer` component). JavaScript numbers are modelled as exact
rationals (`ℚ`) except for the ship-movement step, which uses `Math.hypot`
and is therefore modelled over the reals. State held in React refs and
`useState` hooks is collected into explicit structures, and the per-frame
side-effecting loops become pure functions on those structures.
-/

namespace NeonDrift

/-- `clamp(v, min, max) = Math.max(min, Math.min(max, v))`. -/
def clamp (v lo hi : ℚ) : ℚ := max lo (min hi v)

/-- `hit(x1, y1, r1, x2, y2, r2)`: circle overlap test,
`(x1 - x2) ** 2 + (y1 - y2) ** 2 <= (r1 + r2) ** 2`. -/
def hit (x1 y1 r1 x2 y2 r2 : ℚ) : Bool :=
  decide ((x1 - x2) ^ 2 + (y1 - y2) ^ 2 ≤ (r1 + r2) ^ 2)

/-- Enemy behaviour variants: `"drone" | "swoop" | "zig"`. -/
inductive EnemyType where
  | drone
  | swoop
  | zig
deriving DecidableEq, Repr

/-- Power-up kinds: `"shield" | "rapid" | "heal"`. -/
inductive PowerKind where
  | shield
  | rapid
  | heal
deriving DecidableEq, Repr

/-- `Bullet`: position, velocity, radius, remaining lifetime, colour. -/
structure Bullet where
  x : ℚ
  y : ℚ
  vx : ℚ
  vy : ℚ
  r : ℚ
  ttl : ℚ
  color : String
deriving DecidableEq, Repr

/-- `Enemy`: position, velocity, radius, hit points, behaviour variant. -/
structure Enemy where
  x : ℚ
  y : ℚ
  vx : ℚ
  vy : ℚ
  r : ℚ
  hp : ℤ
  type : EnemyType
deriving DecidableEq, Repr

/-- `Asteroid`: position, velocity, radius, spin and rotation angle. -/
structure Asteroid where
  x : ℚ
  y : ℚ
  vx : ℚ
  vy : ℚ
  r : ℚ
  spin : ℚ
  angle : ℚ
deriving DecidableEq, Repr

/-- `PowerUp`: position, velocity, radius, kind, remaining lifetime. -/
structure PowerUp where
  x : ℚ
  y : ℚ
  vx : ℚ
  vy : ℚ
  r : ℚ
  kind : PowerKind
  ttl : ℚ
deriving DecidableEq, Repr

/-- The `ship` ref: `{ x, y, r, speed, vx, vy, shieldT, rapidT }`. -/
structure Ship where
  x : ℚ
  y : ℚ
  r : ℚ
  speed : ℚ
  vx : ℚ
  vy : ℚ
  shieldT : ℚ
  rapidT : ℚ
deriving DecidableEq, Repr

/-- The `timers` ref: `{ enemy, asteroid, power, shoot }` countdowns. -/
structure Timers where
  enemy : ℚ
  asteroid : ℚ
  power : ℚ
  shoot : ℚ
deriving DecidableEq, Repr

/-- Session plus world state: React state hooks (`score`, `health`,
`running`, `gameOver`, `autofire`) together with the world refs. -/
structure GameState where
  score : ℕ
  health : ℚ
  running : Bool
  gameOver : Bool
  autofire : Bool
  ship : Ship
  bullets : List Bullet
  enemies : List Enemy
  asteroids : List Asteroid
  powerups : List PowerUp
  timers : Timers
deriving DecidableEq, Repr

/-- The initial `ship` ref value
`{ x: 200, y: 300, r: 14, speed: 420, vx: 0, vy: 0, shieldT: 0, rapidT: 0 }`,
also re-created by `restart`. -/
def initialShip : Ship :=
  { x := 200, y := 300, r := 14, speed := 420, vx := 0, vy := 0,
    shieldT := 0, rapidT := 0 }

/-- `damage(dmg)`: if the shield timer is positive the health update is
skipped (only the hit sound plays); otherwise health becomes
`Math.max(0, h - dmg)`. The returned boolean records that the hit-feedback
sound (`synth.hit()`) fired, which it does on both paths. -/
def damage (dmg : ℚ) (s : GameState) : GameState × Bool :=
  if s.ship.shieldT > 0 then (s, true)
  else ({ s with health := max 0 (s.health - dmg) }, true)

/-- `applyPower(kind)`: shield sets `shieldT = 4`, rapid sets `rapidT = 5`,
heal sets health to `Math.min(100, h + 20)`; every kind adds 25 score. -/
def applyPower (kind : PowerKind) (s : GameState) : GameState :=
  let s1 :=
    match kind with
    | .shield => { s with ship := { s.ship with shieldT := 4 } }
    | .rapid => { s with ship := { s.ship with rapidT := 5 } }
    | .heal => { s with health := min 100 (s.health + 20) }
  { s1 with score := s1.score + 25 }

/-- `restart()`: zeroes score, restores health to 100, clears the
game-over flag, empties all entity pools, re-creates the ship and sets
running. The spawn `timers` ref and the `autofire` flag are not touched. -/
def restart (s : GameState) : GameState :=
  { s with
    score := 0
    health := 100
    gameOver := false
    bullets := []
    enemies := []
    asteroids := []
    powerups := []
    ship := initialShip
    running := true }

/-- Per-frame status-effect decay:
`shieldT = Math.max(0, shieldT - dt)` and `rapidT = Math.max(0, rapidT - dt)`. -/
def decayTimers (dt : ℚ) (s : GameState) : GameState :=
  { s with ship := { s.ship with
      shieldT := max 0 (s.ship.shieldT - dt)
      rapidT := max 0 (s.ship.rapidT - dt) } }

/-- `const prev = lastTime.current ?? t; Math.min(0.032, (t - prev) / 1000)`. -/
def computeDt (lastTime : Option ℚ) (t : ℚ) : ℚ :=
  let prev := lastTime.getD t
  min 0.032 ((t - prev) / 1000)

/-- Difficulty scaling: `difficulty.current = Math.min(6, 1 + score / 400)`. -/
def difficulty (score : ℕ) : ℚ := min 6 (1 + (score : ℚ) / 400)

/-- HUD level: `Math.max(1, Math.min(6, 1 + Math.floor(score / 400)))`
(floor division on a non-negative score is natural division). -/
def level (score : ℕ) : ℕ := max 1 (min 6 (1 + score / 400))

/-- Enemy spawn interval bounds: the reset is
`rand(0.5, 1.2) / Math.max(1, difficulty.current)`, so the admissible
interval is `[0.5 / max(1, d), 1.2 / max(1, d)]`. -/
def enemyIntervalLo (d : ℚ) : ℚ := 0.5 / max 1 d

/-- Upper bound of the enemy spawn interval, `1.2 / max(1, d)`. -/
def enemyIntervalHi (d : ℚ) : ℚ := 1.2 / max 1 d

/-- Lower bound of the asteroid spawn interval, `0.8 / max(1, d)`. -/
def asteroidIntervalLo (d : ℚ) : ℚ := 0.8 / max 1 d

/-- Upper bound of the asteroid spawn interval, `1.6 / max(1, d)`. -/
def asteroidIntervalHi (d : ℚ) : ℚ := 1.6 / max 1 d

/-- Pickup kind selection in `spawnPowerUp`:
`Math.random() < 0.4 ? "shield" : Math.random() < 0.6 ? "heal" : "rapid"`,
with `u1`, `u2` the two independent uniform draws. -/
def pickKind (u1 u2 : ℚ) : PowerKind :=
  if u1 < 0.4 then .shield else if u2 < 0.6 then .heal else .rapid

/-- The bullet/enemy overlap test `hit(b.x, b.y, b.r, e.x, e.y, e.r)`. -/
def bulletHitsEnemy (b : Bullet) (e : Enemy) : Bool :=
  hit b.x b.y b.r e.x e.y e.r

/-- The inner loop of the bullet-vs-enemy collision pass for one bullet
`b`, walking the enemy list in order. On a hit the bullet's `ttl` is set
to 0 and the enemy loses one hit point; an enemy at `hp <= 0` scores 50
and is marked for removal by `e.y = canvas.height + 100`. The loop does
not stop after the first hit. Returns the updated bullet, the updated
enemy list, and the score gained. (The 4% chance power-up spawn and the
sound effects at the death site do not affect bullets or enemies and are
modelled separately.) -/
def bulletEnemyPass (H : ℚ) (b : Bullet) : List Enemy → Bullet × List Enemy × ℕ
  | [] => (b, [], 0)
  | e :: es =>
    if bulletHitsEnemy b e then
      let e1 : Enemy := { e with hp := e.hp - 1 }
      let dead := e1.hp ≤ 0
      let e2 : Enemy := if dead then { e1 with y := H + 100 } else e1
      let gain : ℕ := if dead then 50 else 0
      let rest := bulletEnemyPass H { b with ttl := 0 } es
      (rest.1, e2 :: rest.2.1, gain + rest.2.2)
    else
      let rest := bulletEnemyPass H b es
      (rest.1, e :: rest.2.1, rest.2.2)

/-- The full `bullets vs enemies` collision phase: the outer loop over the
bullet list, each bullet running `bulletEnemyPass` against the current
enemy list. -/
def bulletsEnemiesPhase (H : ℚ) : List Bullet → List Enemy → List Bullet × List Enemy × ℕ
  | [], es => ([], es, 0)
  | b :: bs, es =>
    let first := bulletEnemyPass H b es
    let rest := bulletsEnemiesPhase H bs first.2.1
    (first.1 :: rest.1, rest.2.1, first.2.2 + rest.2.2)

/-- Session-level operations on health: a `damage(dmg)` call, a heal
pickup collection (`applyPower("heal")`), or a `restart()`. -/
inductive Op where
  | damage (dmg : ℚ)
  | heal
  | restart
deriving DecidableEq, Repr

/-- Apply one session operation to the state. -/
def applyOp (s : GameState) (op : Op) : GameState :=
  match op with
  | .damage dmg => (damage dmg s).1
  | .heal => applyPower .heal s
  | .restart => restart s

/-- Apply a sequence of session operations in order. -/
def runOps (s : GameState) (ops : List Op) : GameState :=
  ops.foldl applyOp s

/-- Damage amounts are non-negative (the game only calls `damage(20)` and
`damage(15)`); heal and restart carry no amount. -/
def Op.nonnegDmg : Op → Prop
  | .damage dmg => 0 ≤ dmg
  | .heal => True
  | .restart => True

instance : DecidablePred Op.nonnegDmg := fun op =>
  match op with
  | .damage dmg => inferInstanceAs (Decidable (0 ≤ dmg))
  | .heal => inferInstanceAs (Decidable True)
  | .restart => inferInstanceAs (Decidable True)

/-- `clamp` over the reals, for the ship-movement step. -/
noncomputable def clampR (v lo hi : ℝ) : ℝ := max lo (min hi v)

/-- The per-frame "move ship toward target" step, over the reals because
it uses `Math.hypot`:

    dx = target.x * dpr - x;  dy = target.y * dpr - y;
    dist = Math.hypot(dx, dy) || 1;
    maxMove = speed * dt * dpr;  step = Math.min(1, maxMove / dist);
    x += dx * step;  y += dy * step;
    x = clamp(x, 20 * dpr, W - 20 * dpr);  y = clamp(y, 20 * dpr, H - 20 * dpr);

`hypot || 1` replaces a zero distance by 1. Returns the new `(x, y)`. -/
noncomputable def moveShip (x y targetX targetY dpr speed dt W H : ℝ) : ℝ × ℝ :=
  let dx := targetX * dpr - x
  let dy := targetY * dpr - y
  let h := Real.sqrt (dx ^ 2 + dy ^ 2)
  let dist := if h = 0 then 1 else h
  let maxMove := speed * dt * dpr
  let step := min 1 (maxMove / dist)
  let x1 := x + dx * step
  let y1 := y + dy * step
  (clampR x1 (20 * dpr) (W - 20 * dpr), clampR y1 (20 * dpr) (H - 20 * dpr))

/-- The initial session state: hooks start at
`running = true, score = 0, health = 100, gameOver = false, autofire = true`,
the ship ref at `initialShip`, all pools empty, and the `timers` ref at
`{ enemy: 0, asteroid: 0, power: 5, shoot: 0 }`. -/
def initialState : GameState :=
  { score := 0, health := 100, running := true, gameOver := false,
    autofire := true, ship := initialShip, bullets := [], enemies := [],
    asteroids := [], powerups := [],
    timers := { enemy := 0, asteroid := 0, power := 5, shoot := 0 } }

/-- C7: the circle-overlap test `hit` returns `true` iff the squared
distance between the centers is at most the squared sum of the radii
(touching circles count as a hit), and it is symmetric in its two
circles. -/
theorem hit_iff_le_and_symm (x1 y1 r1 x2 y2 r2 : ℚ) :
    (hit x1 y1 r1 x2 y2 r2 = true ↔
      (x1 - x2) ^ 2 + (y1 - y2) ^ 2 ≤ (r1 + r2) ^ 2) ∧
    hit x1 y1 r1 x2 y2 r2 = hit x2 y2 r2 x1 y1 r1 := by
  refine ⟨by simp [hit], ?_⟩
  have h1 : (x1 - x2) ^ 2 + (y1 - y2) ^ 2 = (x2 - x1) ^ 2 + (y2 - y1) ^ 2 := by
    ring
  have h2 : (r1 + r2) ^ 2 = (r2 + r1) ^ 2 := by ring
  simp only [hit, h1, h2]

/-- C4: `dt` is 0 on the very first frame (no previous timestamp), and
whenever the current timestamp is at least the previous one, the computed
`dt` is at most 0.032 seconds. -/
theorem computeDt_first_frame_and_clamp :
    (∀ t : ℚ, computeDt none t = 0) ∧
    (∀ prev t : ℚ, prev ≤ t → computeDt (some prev) t ≤ 0.032) := by
  constructor
  · intro t
    norm_num [computeDt]
  · intro prev t _
    simp only [computeDt, Option.getD_some]
    exact min_le_left _ _

/-- Witness for `computeDt_first_frame_and_clamp` at `t = 5` and at
`prev = 1, t = 100`. -/
theorem computeDt_first_frame_and_clamp_witness :
    computeDt none 5 = 0 ∧
    ((1 : ℚ) ≤ 100 ∧ computeDt (some 1) 100 ≤ 0.032) :=
  ⟨computeDt_first_frame_and_clamp.1 5,
    by norm_num,
    computeDt_first_frame_and_clamp.2 1 100 (by norm_num)⟩

/-- C9: after `restart`, regardless of the prior state: score is 0,
health is 100, all four entity pools are empty, the game-over flag is
cleared, the running flag is set, and the ship's shield and rapid-fire
timers are 0. -/
theorem restart_resets (s : GameState) :
    (restart s).score = 0 ∧ (restart s).health = 100 ∧
    (restart s).bullets = [] ∧ (restart s).enemies = [] ∧
    (restart s).asteroids = [] ∧ (restart s).powerups = [] ∧
    (restart s).gameOver = false ∧ (restart s).running = true ∧
    (restart s).ship.shieldT = 0 ∧ (restart s).ship.rapidT = 0 := by
  simp [restart, initialShip]

/-- C10: collecting any pickup adds exactly 25 score; a shield pickup
sets the shield timer to 4, a rapid pickup sets the rapid-fire timer to
5, a heal pickup sets health to `min 100 (health + 20)`; and no other
session or craft field changes (the other status timer, health where not
healed, flags, pools, spawn timers, and the ship's position, radius,
speed and velocity are all preserved). -/
theorem applyPower_spec (s : GameState) :
    (∀ kind, (applyPower kind s).score = s.score + 25) ∧
    ((applyPower .shield s).ship.shieldT = 4 ∧
      (applyPower .shield s).ship.rapidT = s.ship.rapidT ∧
      (applyPower .shield s).health = s.health) ∧
    ((applyPower .rapid s).ship.rapidT = 5 ∧
      (applyPower .rapid s).ship.shieldT = s.ship.shieldT ∧
      (applyPower .rapid s).health = s.health) ∧
    ((applyPower .heal s).health = min 100 (s.health + 20) ∧
      (applyPower .heal s).ship = s.ship) ∧
    (∀ kind,
      (applyPower kind s).running = s.running ∧
      (applyPower kind s).gameOver = s.gameOver ∧
      (applyPower kind s).autofire = s.autofire ∧
      (applyPower kind s).bullets = s.bullets ∧
      (applyPower kind s).enemies = s.enemies ∧
      (applyPower kind s).asteroids = s.asteroids ∧
      (applyPower kind s).powerups = s.powerups ∧
      (applyPower kind s).timers = s.timers ∧
      (applyPower kind s).ship.x = s.ship.x ∧
      (applyPower kind s).ship.y = s.ship.y ∧
      (applyPower kind s).ship.r = s.ship.r ∧
      (applyPower kind s).ship.speed = s.ship.speed ∧
      (applyPower kind s).ship.vx = s.ship.vx ∧
      (applyPower kind s).ship.vy = s.ship.vy) := by
  refine ⟨fun kind => ?_, ?_, ?_, ?_, fun kind => ?_⟩
  · cases kind <;> simp [applyPower]
  · simp [applyPower]
  · simp [applyPower]
  · simp [applyPower]
  · cases kind <;> simp [applyPower]

/-- C2: while the shield timer is strictly positive, `damage` leaves
health exactly unchanged but still fires the hit-feedback sound; and in
the scenario with shield timer 2.0, after one frame's decay with
`0 ≤ dt ≤ 0.032` the shield timer is still positive, so a subsequent
`damage` call (for instance `damage 15`) leaves health unchanged. -/
theorem damage_shield_noop (s : GameState) (dmg dt : ℚ) :
    (s.ship.shieldT > 0 →
      (damage dmg s).1.health = s.health ∧ (damage dmg s).2 = true) ∧
    (s.ship.shieldT = 2 → 0 ≤ dt → dt ≤ 0.032 →
      (decayTimers dt s).ship.shieldT > 0 ∧
      (damage dmg (decayTimers dt s)).1.health = s.health ∧
      (damage dmg (decayTimers dt s)).2 = true) := by
  constructor
  · intro hpos
    simp [damage, hpos]
  · intro h2 hdt0 hdt1
    have hpos : (decayTimers dt s).ship.shieldT > 0 := by
      simp only [decayTimers, h2]
      simp only [lt_max_iff]
      right
      linarith
    have hd : damage dmg (decayTimers dt s) = (decayTimers dt s, true) := by
      unfold damage
      rw [if_pos hpos]
    refine ⟨hpos, ?_, ?_⟩
    · rw [hd]
      rfl
    · rw [hd]

/-- Witness for `damage_shield_noop`: the initial state with shield timer
2, damage 15, frame time `dt = 0.016`. -/
theorem damage_shield_noop_witness :
    (({ initialState with
        ship := { initialShip with shieldT := 2 } } : GameState).ship.shieldT > 0 →
      (damage 15 { initialState with
        ship := { initialShip with shieldT := 2 } }).1.health
        = ({ initialState with
            ship := { initialShip with shieldT := 2 } } : GameState).health ∧
      (damage 15 { initialState with
        ship := { initialShip with shieldT := 2 } }).2 = true) ∧
    (({ initialState with
        ship := { initialShip with shieldT := 2 } } : GameState).ship.shieldT = 2 →
      (0 : ℚ) ≤ 0.016 → (0.016 : ℚ) ≤ 0.032 →
      (decayTimers 0.016 { initialState with
        ship := { initialShip with shieldT := 2 } }).ship.shieldT > 0 ∧
      (damage 15 (decayTimers 0.016 { initialState with
        ship := { initialShip with shieldT := 2 } })).1.health
        = ({ initialState with
            ship := { initialShip with shieldT := 2 } } : GameState).health ∧
      (damage 15 (decayTimers 0.016 { initialState with
        ship := { initialShip with shieldT := 2 } })).2 = true) :=
  damage_shield_noop
    { initialState with ship := { initialShip with shieldT := 2 } } 15 0.016

/-- C8: the difficulty factor `min 6 (1 + score / 400)` lies in `[1, 6]`
for every score, is monotone in the score, and when the score first
reaches 400 the derived level rises from 1 to 2 while the spawn-interval
bounds (base interval divided by `max 1 difficulty`) strictly shrink. -/
theorem difficulty_level_spawn_spec :
    (∀ s : ℕ, 1 ≤ difficulty s ∧ difficulty s ≤ 6) ∧
    (∀ s t : ℕ, s ≤ t → difficulty s ≤ difficulty t) ∧
    level 399 = 1 ∧ level 400 = 2 ∧
    difficulty 0 = 1 ∧ difficulty 400 = 2 ∧
    enemyIntervalLo (difficulty 400) < enemyIntervalLo (difficulty 0) ∧
    enemyIntervalHi (difficulty 400) < enemyIntervalHi (difficulty 0) ∧
    asteroidIntervalLo (difficulty 400) < asteroidIntervalLo (difficulty 0) ∧
    asteroidIntervalHi (difficulty 400) < asteroidIntervalHi (difficulty 0) := by
  have h0 : difficulty 0 = 1 := by norm_num [difficulty]
  have h400 : difficulty 400 = 2 := by norm_num [difficulty]
  refine ⟨fun s => ⟨?_, min_le_left _ _⟩, fun s t hst => ?_, ?_, ?_, h0, h400,
    ?_, ?_, ?_, ?_⟩
  · refine le_min (by norm_num) ?_
    have : (0 : ℚ) ≤ (s : ℚ) / 400 := by positivity
    linarith
  · refine min_le_min le_rfl ?_
    have : (s : ℚ) ≤ (t : ℚ) := by exact_mod_cast hst
    linarith
  · decide
  · decide
  · rw [h0, h400]; norm_num [enemyIntervalLo]
  · rw [h0, h400]; norm_num [enemyIntervalHi]
  · rw [h0, h400]; norm_num [asteroidIntervalLo]
  · rw [h0, h400]; norm_num [asteroidIntervalHi]

/-- Witness for `difficulty_level_spawn_spec` at scores `100 ≤ 500`. -/
theorem difficulty_level_spawn_spec_witness :
    (1 ≤ difficulty 100 ∧ difficulty 100 ≤ 6) ∧
    ((100 : ℕ) ≤ 500 ∧ difficulty 100 ≤ difficulty 500) :=
  ⟨difficulty_level_spawn_spec.1 100,
    by norm_num,
    difficulty_level_spawn_spec.2.1 100 500 (by norm_num)⟩

/-- One session operation with a non-negative damage amount keeps health
in `[0, 100]`. -/
lemma applyOp_health_bounds (s : GameState) (op : Op) (hop : op.nonnegDmg)
    (h0 : 0 ≤ s.health) (h1 : s.health ≤ 100) :
    0 ≤ (applyOp s op).health ∧ (applyOp s op).health ≤ 100 := by
  cases op with
  | damage dmg =>
    have hdmg : 0 ≤ dmg := hop
    simp only [applyOp, damage]
    split
    · exact ⟨h0, h1⟩
    · refine ⟨le_max_left _ _, ?_⟩
      simp only [max_le_iff]
      constructor <;> linarith
  | heal =>
    simp only [applyOp, applyPower]
    refine ⟨le_min (by norm_num) (by linarith), min_le_left _ _⟩
  | restart =>
    simp only [applyOp, restart]
    norm_num

/-- C1: health stays within `[0, 100]` under every sequence of damage
(with non-negative amount), heal and restart operations: `damage dmg`
sets health to `max 0 (health - dmg)` (or skips it under an active
shield), heal sets it to `min 100 (health + 20)`, restart to 100. -/
theorem health_invariant (ops : List Op) (s : GameState)
    (hops : ∀ op ∈ ops, op.nonnegDmg)
    (h0 : 0 ≤ s.health) (h1 : s.health ≤ 100) :
    0 ≤ (runOps s ops).health ∧ (runOps s ops).health ≤ 100 := by
  induction ops generalizing s with
  | nil => exact ⟨h0, h1⟩
  | cons op rest ih =>
    have hop := hops op (List.mem_cons_self op rest)
    have hbounds := applyOp_health_bounds s op hop h0 h1
    have hrest : ∀ o ∈ rest, o.nonnegDmg := fun o ho =>
      hops o (List.mem_cons_of_mem op ho)
    simpa [runOps, List.foldl_cons] using
      ih (applyOp s op) hrest hbounds.1 hbounds.2

/-- Witness for `health_invariant`: a concrete mixed sequence of damage,
heal and restart operations starting from the initial state. -/
theorem health_invariant_witness :
    (∀ op ∈ [Op.damage 30, Op.heal, Op.damage 200, Op.restart, Op.damage 15],
      op.nonnegDmg) ∧
    (0 ≤ initialState.health ∧ initialState.health ≤ 100) ∧
    (0 ≤ (runOps initialState
        [Op.damage 30, Op.heal, Op.damage 200, Op.restart, Op.damage 15]).health ∧
      (runOps initialState
        [Op.damage 30, Op.heal, Op.damage 200, Op.restart, Op.damage 15]).health
        ≤ 100) :=
  ⟨by decide, ⟨by decide, by decide⟩,
    health_invariant
      [Op.damage 30, Op.heal, Op.damage 200, Op.restart, Op.damage 15]
      initialState (by decide) (by decide) (by decide)⟩

/-- Setting a bullet's `ttl` does not change the overlap test, which only
reads its position and radius. -/
lemma bulletHitsEnemy_setTtl (b : Bullet) (t : ℚ) :
    bulletHitsEnemy { b with ttl := t } = bulletHitsEnemy b := rfl

/-- C3 (amended): one bullet's pass over the enemy list decrements the
hit points of *every* enemy it overlaps by exactly one (the inner loop
does not stop at the first hit), the bullet's `ttl` ends at 0 exactly
when it overlapped at least one enemy (marking it for removal at the
next frame's cull), and no enemy is removed within the pass (the list
keeps its length; dead enemies are only relocated below the playfield). -/
theorem bulletEnemyPass_spec (H : ℚ) (b : Bullet) (es : List Enemy) :
    (bulletEnemyPass H b es).2.1.map Enemy.hp
      = es.map (fun e => if bulletHitsEnemy b e then e.hp - 1 else e.hp) ∧
    (bulletEnemyPass H b es).1.ttl
      = (if es.any (bulletHitsEnemy b) then 0 else b.ttl) ∧
    (bulletEnemyPass H b es).2.1.length = es.length := by
  induction es generalizing b with
  | nil => simp [bulletEnemyPass]
  | cons e es ih =>
    by_cases hbe : bulletHitsEnemy b e
    · obtain ⟨ihm, iht, ihl⟩ := ih { b with ttl := 0 }
      rw [bulletHitsEnemy_setTtl] at iht ihm
      refine ⟨?_, ?_, ?_⟩
      · simp only [bulletEnemyPass, hbe, if_true, List.map_cons, ihm]
        congr 1
        by_cases hd : (e.hp - 1 : ℤ) ≤ 0 <;> simp [hd]
      · simp only [bulletEnemyPass, hbe, if_true, List.any_cons, iht,
          Bool.true_or]
        split <;> rfl
      · simp only [bulletEnemyPass, hbe, if_true, List.length_cons, ihl]
    · obtain ⟨ihm, iht, ihl⟩ := ih b
      refine ⟨?_, ?_, ?_⟩
      · simp only [bulletEnemyPass, hbe, if_false, List.map_cons, ihm,
          Bool.false_eq_true]
      · simp only [bulletEnemyPass, hbe, if_false, List.any_cons, iht,
          Bool.false_or, Bool.false_eq_true]
      · simp only [bulletEnemyPass, hbe, if_false, List.length_cons, ihl,
          Bool.false_eq_true]

/-- C3 counterexample: a single bullet overlapping two enemies (hp 2
each) decrements both of them in one collision phase — the projectile is
not consumed by its first hit, refuting "decrements the hit points of at
most one hostile" and "no further interaction after the destroy-predicate
becomes true". -/
theorem bullet_decrements_two_enemies :
    ([({ x := 0, y := 0, vx := 0, vy := 100, r := 12, hp := 2,
          type := .drone } : Enemy),
        { x := 10, y := 0, vx := 0, vy := 100, r := 12, hp := 2,
          type := .drone }].map Enemy.hp = [2, 2]) ∧
    (bulletsEnemiesPhase 100
        [{ x := 0, y := 0, vx := 0, vy := -900, r := 4, ttl := 2,
            color := "#00fff0" }]
        [{ x := 0, y := 0, vx := 0, vy := 100, r := 12, hp := 2,
            type := .drone },
          { x := 10, y := 0, vx := 0, vy := 100, r := 12, hp := 2,
            type := .drone }]).2.1.map Enemy.hp = [1, 1] := by
  norm_num [bulletsEnemiesPhase, bulletEnemyPass, bulletHitsEnemy, hit]

/-- `clampR` lands in `[lo, hi]` whenever `lo ≤ hi`. -/
lemma clampR_mem (v lo hi : ℝ) (h : lo ≤ hi) :
    lo ≤ clampR v lo hi ∧ clampR v lo hi ≤ hi :=
  ⟨le_max_left _ _, max_le h (min_le_left _ _)⟩

/-- Clamping to an interval containing the origin point moves the result
no further from that point than the unclamped value. -/
lemma clampR_sq_le (z x0 lo hi : ℝ) (h0 : lo ≤ x0) (h1 : x0 ≤ hi) :
    (clampR z lo hi - x0) ^ 2 ≤ (z - x0) ^ 2 := by
  unfold clampR
  rcases le_total z x0 with hz | hz
  · have hle : z ≤ max lo (min hi z) := by
      have hmin : min hi z = z := min_eq_right (le_trans hz h1)
      rw [hmin]
      exact le_max_right _ _
    have hup : max lo (min hi z) ≤ x0 :=
      max_le h0 (le_trans (min_le_right _ _) hz)
    have := sq_le_sq' (show -(x0 - z) ≤ max lo (min hi z) - x0 by linarith)
      (show max lo (min hi z) - x0 ≤ x0 - z by linarith)
    calc (max lo (min hi z) - x0) ^ 2 ≤ (x0 - z) ^ 2 := this
      _ = (z - x0) ^ 2 := by ring
  · have hge : x0 ≤ max lo (min hi z) :=
      le_trans (le_min h1 hz) (le_max_right _ _)
    have hup : max lo (min hi z) ≤ z :=
      max_le (le_trans h0 hz) (min_le_right _ _)
    exact sq_le_sq' (by linarith) (by linarith)

/-- C5: for `dt ≥ 0` and a playfield of width `W ≥ 40·dpr` and height
`H ≥ 40·dpr`, one move-toward-target step from a position inside the
margins ends inside the margins `[20·dpr, W − 20·dpr] × [20·dpr, H − 20·dpr]`,
and the Euclidean distance moved is at most `speed · dt · dpr`. -/
theorem moveShip_in_bounds (x y tx ty dpr speed dt W H : ℝ)
    (hdpr : 0 ≤ dpr) (hspeed : 0 ≤ speed) (hdt : 0 ≤ dt)
    (hW : 40 * dpr ≤ W) (hH : 40 * dpr ≤ H)
    (hx0 : 20 * dpr ≤ x) (hx1 : x ≤ W - 20 * dpr)
    (hy0 : 20 * dpr ≤ y) (hy1 : y ≤ H - 20 * dpr) :
    (20 * dpr ≤ (moveShip x y tx ty dpr speed dt W H).1 ∧
      (moveShip x y tx ty dpr speed dt W H).1 ≤ W - 20 * dpr) ∧
    (20 * dpr ≤ (moveShip x y tx ty dpr speed dt W H).2 ∧
      (moveShip x y tx ty dpr speed dt W H).2 ≤ H - 20 * dpr) ∧
    Real.sqrt (((moveShip x y tx ty dpr speed dt W H).1 - x) ^ 2 +
        ((moveShip x y tx ty dpr speed dt W H).2 - y) ^ 2)
      ≤ speed * dt * dpr := by
  have hWlo : 20 * dpr ≤ W - 20 * dpr := by linarith
  have hHlo : 20 * dpr ≤ H - 20 * dpr := by linarith
  have hmm : 0 ≤ speed * dt * dpr := by positivity
  set dx := tx * dpr - x with hdxdef
  set dy := ty * dpr - y with hdydef
  set hy := Real.sqrt (dx ^ 2 + dy ^ 2) with hhydef
  set dist := if hy = 0 then 1 else hy with hdistdef
  set step := min 1 (speed * dt * dpr / dist) with hstepdef
  have hmove : moveShip x y tx ty dpr speed dt W H
      = (clampR (x + dx * step) (20 * dpr) (W - 20 * dpr),
          clampR (y + dy * step) (20 * dpr) (H - 20 * dpr)) := rfl
  rw [hmove]
  have hhy0 : 0 ≤ hy := Real.sqrt_nonneg _
  have hdistpos : 0 < dist := by
    rw [hdistdef]
    split
    · norm_num
    · rename_i hne
      exact lt_of_le_of_ne hhy0 (Ne.symm hne)
  have hstep0 : 0 ≤ step :=
    le_min (by norm_num) (div_nonneg hmm hdistpos.le)
  have hsh : 0 ≤ step * hy := mul_nonneg hstep0 hhy0
  have hshle : step * hy ≤ speed * dt * dpr := by
    by_cases h0 : hy = 0
    · rw [h0, mul_zero]
      exact hmm
    · have hhypos : 0 < hy := lt_of_le_of_ne hhy0 (Ne.symm h0)
      have hdisteq : dist = hy := by
        rw [hdistdef, if_neg h0]
      have hle : step ≤ speed * dt * dpr / hy := by
        rw [← hdisteq]
        exact min_le_right _ _
      calc step * hy ≤ speed * dt * dpr / hy * hy :=
            mul_le_mul_of_nonneg_right hle hhy0
        _ = speed * dt * dpr := div_mul_cancel₀ _ (ne_of_gt hhypos)
  have hpre : (dx * step) ^ 2 + (dy * step) ^ 2 ≤ (speed * dt * dpr) ^ 2 := by
    have hsq : dx ^ 2 + dy ^ 2 = hy ^ 2 := by
      rw [hhydef, Real.sq_sqrt (by positivity)]
    have heq : (dx * step) ^ 2 + (dy * step) ^ 2 = (step * hy) ^ 2 := by
      have : (dx * step) ^ 2 + (dy * step) ^ 2 = step ^ 2 * (dx ^ 2 + dy ^ 2) := by
        ring
      rw [this, hsq]
      ring
    rw [heq]
    exact pow_le_pow_left₀ hsh hshle 2
  have hxclamp := clampR_sq_le (x + dx * step) x (20 * dpr) (W - 20 * dpr) hx0 hx1
  have hyclamp := clampR_sq_le (y + dy * step) y (20 * dpr) (H - 20 * dpr) hy0 hy1
  have hxsimp : (x + dx * step - x) ^ 2 = (dx * step) ^ 2 := by ring
  have hysimp : (y + dy * step - y) ^ 2 = (dy * step) ^ 2 := by ring
  rw [hxsimp] at hxclamp
  rw [hysimp] at hyclamp
  refine ⟨clampR_mem _ _ _ hWlo, clampR_mem _ _ _ hHlo, ?_⟩
  calc Real.sqrt ((clampR (x + dx * step) (20 * dpr) (W - 20 * dpr) - x) ^ 2 +
          (clampR (y + dy * step) (20 * dpr) (H - 20 * dpr) - y) ^ 2)
      ≤ Real.sqrt ((speed * dt * dpr) ^ 2) := by
        apply Real.sqrt_le_sqrt
        calc (clampR (x + dx * step) (20 * dpr) (W - 20 * dpr) - x) ^ 2 +
              (clampR (y + dy * step) (20 * dpr) (H - 20 * dpr) - y) ^ 2
            ≤ (dx * step) ^ 2 + (dy * step) ^ 2 := add_le_add hxclamp hyclamp
          _ ≤ (speed * dt * dpr) ^ 2 := hpre
    _ = speed * dt * dpr := Real.sqrt_sq hmm

/-- Witness for `moveShip_in_bounds`: ship at `(30, 30)` targeting its
own position, `dpr = 1`, `speed = 420`, `dt = 0` on a `100 × 100` field. -/
theorem moveShip_in_bounds_witness :
    ((0 : ℝ) ≤ 1 ∧ (0 : ℝ) ≤ 420 ∧ (0 : ℝ) ≤ 0 ∧
      (40 : ℝ) * 1 ≤ 100 ∧ (40 : ℝ) * 1 ≤ 100 ∧
      (20 : ℝ) * 1 ≤ 30 ∧ (30 : ℝ) ≤ 100 - 20 * 1 ∧
      (20 : ℝ) * 1 ≤ 30 ∧ (30 : ℝ) ≤ 100 - 20 * 1) ∧
    ((20 * 1 ≤ (moveShip 30 30 30 30 1 420 0 100 100).1 ∧
        (moveShip 30 30 30 30 1 420 0 100 100).1 ≤ 100 - 20 * 1) ∧
      (20 * 1 ≤ (moveShip 30 30 30 30 1 420 0 100 100).2 ∧
        (moveShip 30 30 30 30 1 420 0 100 100).2 ≤ 100 - 20 * 1) ∧
      Real.sqrt (((moveShip 30 30 30 30 1 420 0 100 100).1 - 30) ^ 2 +
          ((moveShip 30 30 30 30 1 420 0 100 100).2 - 30) ^ 2)
        ≤ 420 * 0 * 1) :=
  ⟨⟨by norm_num, by norm_num, by norm_num, by norm_num, by norm_num,
      by norm_num, by norm_num, by norm_num, by norm_num⟩,
    moveShip_in_bounds 30 30 30 30 1 420 0 100 100
      (by norm_num) (by norm_num) (by norm_num) (by norm_num) (by norm_num)
      (by norm_num) (by norm_num) (by norm_num) (by norm_num)⟩

/-- Grid model of the two independent uniform draws in `spawnPowerUp`:
the number of pairs `(i, j)` on the uniform `N × N` grid of draws
`(i/N, j/N)` in `[0,1)²` for which `pickKind` selects kind `k`. -/
def pickCount (N : ℕ) (k : PowerKind) : ℕ :=
  ∑ i ∈ Finset.range N, ∑ j ∈ Finset.range N,
    if pickKind ((i : ℚ) / N) ((j : ℚ) / N) = k then 1 else 0

/-- The sub-`k` part of `range N`. -/
lemma filter_range_lt (N k : ℕ) (hk : k ≤ N) :
    (Finset.range N).filter (fun i => i < k) = Finset.range k := by
  ext i
  simp only [Finset.mem_filter, Finset.mem_range]
  omega

/-- The complement part of `range N` above `k`. -/
lemma filter_range_not_lt (N k : ℕ) :
    (Finset.range N).filter (fun i => ¬ i < k)
      = Finset.range N \ Finset.range k := by
  ext i
  simp only [Finset.mem_filter, Finset.mem_sdiff, Finset.mem_range]

/-- Sum of a two-valued step function over `range N`. -/
lemma sum_ite_lt_const (N k a b : ℕ) (hk : k ≤ N) :
    (∑ i ∈ Finset.range N, if i < k then a else b)
      = k * a + (N - k) * b := by
  rw [Finset.sum_ite, filter_range_lt N k hk, filter_range_not_lt N k,
    Finset.sum_const, Finset.sum_const, Finset.card_range,
    Finset.card_sdiff (Finset.range_subset.mpr hk), Finset.card_range,
    Finset.card_range, smul_eq_mul, smul_eq_mul]

/-- On the `5m`-grid, the first draw is below the 0.4 threshold exactly
for the first `2m` indices. -/
lemma grid_lt_04 (m i : ℕ) (hm : 0 < m) :
    ((i : ℚ) / ((5 * m : ℕ) : ℚ) < 0.4) ↔ i < 2 * m := by
  have h5m : (0 : ℚ) < ((5 * m : ℕ) : ℚ) := by
    have h : 0 < 5 * m := by omega
    exact_mod_cast h
  rw [div_lt_iff₀ h5m]
  rw [show (0.4 : ℚ) * ((5 * m : ℕ) : ℚ) = ((2 * m : ℕ) : ℚ) by
    push_cast; ring]
  exact Nat.cast_lt

/-- On the `5m`-grid, the second draw is below the 0.6 threshold exactly
for the first `3m` indices. -/
lemma grid_lt_06 (m j : ℕ) (hm : 0 < m) :
    ((j : ℚ) / ((5 * m : ℕ) : ℚ) < 0.6) ↔ j < 3 * m := by
  have h5m : (0 : ℚ) < ((5 * m : ℕ) : ℚ) := by
    have h : 0 < 5 * m := by omega
    exact_mod_cast h
  rw [div_lt_iff₀ h5m]
  rw [show (0.6 : ℚ) * ((5 * m : ℕ) : ℚ) = ((3 * m : ℕ) : ℚ) by
    push_cast; ring]
  exact Nat.cast_lt

/-- `pickKind` yields shield exactly when the first draw is below 0.4. -/
lemma pickKind_shield_iff (u1 u2 : ℚ) :
    pickKind u1 u2 = PowerKind.shield ↔ u1 < 0.4 := by
  unfold pickKind
  by_cases h1 : u1 < 0.4
  · simp [h1]
  · by_cases h2 : u2 < 0.6 <;> simp [h1, h2]

/-- `pickKind` yields heal exactly when the first draw is at least 0.4
and the second is below 0.6. -/
lemma pickKind_heal_iff (u1 u2 : ℚ) :
    pickKind u1 u2 = PowerKind.heal ↔ ¬ u1 < 0.4 ∧ u2 < 0.6 := by
  unfold pickKind
  by_cases h1 : u1 < 0.4 <;> by_cases h2 : u2 < 0.6 <;> simp [h1, h2]

/-- `pickKind` yields rapid exactly when both draws are above their
thresholds. -/
lemma pickKind_rapid_iff (u1 u2 : ℚ) :
    pickKind u1 u2 = PowerKind.rapid ↔ ¬ u1 < 0.4 ∧ ¬ u2 < 0.6 := by
  unfold pickKind
  by_cases h1 : u1 < 0.4 <;> by_cases h2 : u2 < 0.6 <;> simp [h1, h2]

/-- Shield count on the `5m`-grid: `2m · 5m` pairs. -/
lemma pickCount_shield (m : ℕ) (hm : 0 < m) :
    pickCount (5 * m) PowerKind.shield = 2 * m * (5 * m) := by
  unfold pickCount
  have hrw : ∀ i ∈ Finset.range (5 * m),
      (∑ j ∈ Finset.range (5 * m),
        if pickKind ((i : ℚ) / ((5 * m : ℕ) : ℚ))
            ((j : ℚ) / ((5 * m : ℕ) : ℚ)) = PowerKind.shield
        then 1 else 0)
      = if i < 2 * m then 5 * m else 0 := by
    intro i _
    have hcongr : ∀ j ∈ Finset.range (5 * m),
        (if pickKind ((i : ℚ) / ((5 * m : ℕ) : ℚ))
            ((j : ℚ) / ((5 * m : ℕ) : ℚ)) = PowerKind.shield
          then 1 else 0)
        = if i < 2 * m then 1 else 0 := by
      intro j _
      refine if_congr ?_ rfl rfl
      rw [pickKind_shield_iff]
      exact grid_lt_04 m i hm
    rw [Finset.sum_congr rfl hcongr, Finset.sum_const, Finset.card_range,
      smul_eq_mul]
    by_cases hi : i < 2 * m <;> simp [hi]
  rw [Finset.sum_congr rfl hrw,
    sum_ite_lt_const (5 * m) (2 * m) (5 * m) 0 (by omega), mul_zero, add_zero]

/-- Heal count on the `5m`-grid: `3m · 3m` pairs. -/
lemma pickCount_heal (m : ℕ) (hm : 0 < m) :
    pickCount (5 * m) PowerKind.heal = 3 * m * (3 * m) := by
  unfold pickCount
  have hrw : ∀ i ∈ Finset.range (5 * m),
      (∑ j ∈ Finset.range (5 * m),
        if pickKind ((i : ℚ) / ((5 * m : ℕ) : ℚ))
            ((j : ℚ) / ((5 * m : ℕ) : ℚ)) = PowerKind.heal
        then 1 else 0)
      = if i < 2 * m then 0 else 3 * m := by
    intro i _
    have hcongr : ∀ j ∈ Finset.range (5 * m),
        (if pickKind ((i : ℚ) / ((5 * m : ℕ) : ℚ))
            ((j : ℚ) / ((5 * m : ℕ) : ℚ)) = PowerKind.heal
          then 1 else 0)
        = if ¬ i < 2 * m ∧ j < 3 * m then 1 else 0 := by
      intro j _
      refine if_congr ?_ rfl rfl
      rw [pickKind_heal_iff]
      exact and_congr (not_congr (grid_lt_04 m i hm)) (grid_lt_06 m j hm)
    rw [Finset.sum_congr rfl hcongr]
    by_cases hi : i < 2 * m
    · rw [if_pos hi]
      refine Finset.sum_eq_zero fun j _ => ?_
      rw [if_neg]
      exact fun hc => hc.1 hi
    · rw [if_neg hi]
      have hj : ∀ j ∈ Finset.range (5 * m),
          (if ¬ i < 2 * m ∧ j < 3 * m then 1 else 0)
          = if j < 3 * m then 1 else 0 := fun j _ =>
        if_congr (and_iff_right hi) rfl rfl
      rw [Finset.sum_congr rfl hj,
        sum_ite_lt_const (5 * m) (3 * m) 1 0 (by omega), mul_one, mul_zero,
        add_zero]
  rw [Finset.sum_congr rfl hrw,
    sum_ite_lt_const (5 * m) (2 * m) 0 (3 * m) (by omega), mul_zero, zero_add]
  have h52 : 5 * m - 2 * m = 3 * m := by omega
  rw [h52]

/-- Rapid count on the `5m`-grid: `3m · 2m` pairs. -/
lemma pickCount_rapid (m : ℕ) (hm : 0 < m) :
    pickCount (5 * m) PowerKind.rapid = 3 * m * (2 * m) := by
  unfold pickCount
  have hrw : ∀ i ∈ Finset.range (5 * m),
      (∑ j ∈ Finset.range (5 * m),
        if pickKind ((i : ℚ) / ((5 * m : ℕ) : ℚ))
            ((j : ℚ) / ((5 * m : ℕ) : ℚ)) = PowerKind.rapid
        then 1 else 0)
      = if i < 2 * m then 0 else 2 * m := by
    intro i _
    have hcongr : ∀ j ∈ Finset.range (5 * m),
        (if pickKind ((i : ℚ) / ((5 * m : ℕ) : ℚ))
            ((j : ℚ) / ((5 * m : ℕ) : ℚ)) = PowerKind.rapid
          then 1 else 0)
        = if ¬ i < 2 * m ∧ ¬ j < 3 * m then 1 else 0 := by
      intro j _
      refine if_congr ?_ rfl rfl
      rw [pickKind_rapid_iff]
      exact and_congr (not_congr (grid_lt_04 m i hm))
        (not_congr (grid_lt_06 m j hm))
    rw [Finset.sum_congr rfl hcongr]
    by_cases hi : i < 2 * m
    · rw [if_pos hi]
      refine Finset.sum_eq_zero fun j _ => ?_
      rw [if_neg]
      exact fun hc => hc.1 hi
    · rw [if_neg hi]
      have hj : ∀ j ∈ Finset.range (5 * m),
          (if ¬ i < 2 * m ∧ ¬ j < 3 * m then 1 else 0)
          = if j < 3 * m then 0 else 1 := by
        intro j _
        by_cases hj6 : j < 3 * m
        · rw [if_pos hj6, if_neg]
          exact fun hc => hc.2 hj6
        · rw [if_neg hj6, if_pos ⟨hi, hj6⟩]
      rw [Finset.sum_congr rfl hj,
        sum_ite_lt_const (5 * m) (3 * m) 0 1 (by omega), mul_zero, mul_one,
        zero_add]
      omega
  rw [Finset.sum_congr rfl hrw,
    sum_ite_lt_const (5 * m) (2 * m) 0 (2 * m) (by omega), mul_zero, zero_add]
  have h52 : 5 * m - 2 * m = 3 * m := by omega
  rw [h52]

/-- C6: with the random source modelled as independent uniform draws
(every uniform `5m × 5m` grid on `[0,1)²`), the pickup-kind selection
picks shield with probability exactly `2/5 = 40%`, heal with probability
exactly `9/25 = 36%`, and rapid-fire with probability exactly
`6/25 = 24%`; heal and rapid are therefore within 5 percentage points
(namely at distance `1/25 = 4%`) of the claimed approximate 40% and 20%. -/
theorem pickKind_distribution (m : ℕ) (hm : 0 < m) :
    (pickCount (5 * m) PowerKind.shield : ℚ) / ((5 * m : ℕ) : ℚ) ^ 2 = 2 / 5 ∧
    (pickCount (5 * m) PowerKind.heal : ℚ) / ((5 * m : ℕ) : ℚ) ^ 2 = 9 / 25 ∧
    (pickCount (5 * m) PowerKind.rapid : ℚ) / ((5 * m : ℕ) : ℚ) ^ 2 = 6 / 25 ∧
    |(pickCount (5 * m) PowerKind.heal : ℚ) / ((5 * m : ℕ) : ℚ) ^ 2 - 2 / 5|
      ≤ 1 / 20 ∧
    |(pickCount (5 * m) PowerKind.rapid : ℚ) / ((5 * m : ℕ) : ℚ) ^ 2 - 1 / 5|
      ≤ 1 / 20 := by
  have hmQ : (m : ℚ) ≠ 0 := Nat.cast_ne_zero.mpr hm.ne'
  have h5 : ((5 * m : ℕ) : ℚ) = 5 * (m : ℚ) := by push_cast; ring
  have h5ne : (5 : ℚ) * (m : ℚ) ≠ 0 := mul_ne_zero (by norm_num) hmQ
  have hsq : (5 * (m : ℚ)) ^ 2 ≠ 0 := pow_ne_zero 2 h5ne
  have hps : (pickCount (5 * m) PowerKind.shield : ℚ)
      / ((5 * m : ℕ) : ℚ) ^ 2 = 2 / 5 := by
    rw [pickCount_shield m hm, h5, div_eq_iff hsq]
    push_cast
    ring
  have hph : (pickCount (5 * m) PowerKind.heal : ℚ)
      / ((5 * m : ℕ) : ℚ) ^ 2 = 9 / 25 := by
    rw [pickCount_heal m hm, h5, div_eq_iff hsq]
    push_cast
    ring
  have hpr : (pickCount (5 * m) PowerKind.rapid : ℚ)
      / ((5 * m : ℕ) : ℚ) ^ 2 = 6 / 25 := by
    rw [pickCount_rapid m hm, h5, div_eq_iff hsq]
    push_cast
    ring
  refine ⟨hps, hph, hpr, ?_, ?_⟩
  · rw [hph, abs_le]
    constructor <;> norm_num
  · rw [hpr, abs_le]
    constructor <;> norm_num

/-- Witness for `pickKind_distribution` at `m = 1` (the `5 × 5` grid). -/
theorem pickKind_distribution_witness :
    0 < 1 ∧
    ((pickCount (5 * 1) PowerKind.shield : ℚ) / ((5 * 1 : ℕ) : ℚ) ^ 2 = 2 / 5 ∧
      (pickCount (5 * 1) PowerKind.heal : ℚ) / ((5 * 1 : ℕ) : ℚ) ^ 2 = 9 / 25 ∧
      (pickCount (5 * 1) PowerKind.rapid : ℚ) / ((5 * 1 : ℕ) : ℚ) ^ 2 = 6 / 25 ∧
      |(pickCount (5 * 1) PowerKind.heal : ℚ) / ((5 * 1 : ℕ) : ℚ) ^ 2 - 2 / 5|
        ≤ 1 / 20 ∧
      |(pickCount (5 * 1) PowerKind.rapid : ℚ) / ((5 * 1 : ℕ) : ℚ) ^ 2 - 1 / 5|
        ≤ 1 / 20) :=
  ⟨by norm_num, pickKind_distribution 1 (by norm_num)⟩

end NeonDrift
